import Mathlib

/-!
Verification of the itinerary ingestion and permission-resolution core of the
AI-Tourism-Guide repository (Next.js + MongoDB travel-itinerary app).

The embedding below translates, from the TypeScript sources:
  * the JSON parse-with-fallback stages of the generate endpoint
    (pages/api/itineraries/generate.ts);
  * the itinerary CRUD handlers (pages/api/itineraries/[id].ts);
  * the index handlers: list and manual create (pages/api/itineraries/index.ts);
  * the add-collaborator handler (pages/api/itineraries/[id]/collaborate.ts);
  * the client-side owner/collaborator membership check (pages/create.tsx).

MongoDB documents are modelled as Lean structures, the itineraries collection as
a `List ItinDoc`, the users collection as a `List UserDoc`.  Mongo `findOne`
with a filter becomes `List.find?` with the translated predicate, `save` /
`findByIdAndUpdate` become in-place maps over the list, `findByIdAndDelete`
becomes a filter.  ObjectId values are modelled as `String` (all comparisons in
the source are made on `.toString()` of ObjectIds).  HTTP responses are
modelled by their status code plus optional payload.
-/

namespace AITG

/-- JSON values, as produced by the platform `JSON.parse`.  The model covers
the JSON fragment exercised by this development: null, booleans, integer
numbers, strings without escape sequences, arrays and objects. -/
inductive Json where
  | null : Json
  | bool (b : Bool) : Json
  | num (n : Int) : Json
  | str (s : String) : Json
  | arr (xs : List Json) : Json
  | obj (kvs : List (String × Json)) : Json

/-- The opening-brace character. -/
def lbrace : Char := Char.ofNat 123

/-- The closing-brace character. -/
def rbrace : Char := Char.ofNat 125

/-- Skip JSON whitespace. -/
def skipWs : List Char → List Char
  | c :: cs =>
      if c = ' ' ∨ c = '\n' ∨ c = '\t' ∨ c = '\r' then skipWs cs else c :: cs
  | [] => []

/-- Consume an expected literal character sequence. -/
def expectChars : List Char → List Char → Option (List Char)
  | [], cs => some cs
  | p :: ps, c :: cs => if c = p then expectChars ps cs else none
  | _ :: _, [] => none

/-- Read a (escape-free) JSON string body up to the closing quote. -/
def pStrGo : List Char → List Char → Option (String × List Char)
  | [], _ => none
  | c :: cs, acc =>
      if c = '"' then some (String.mk acc.reverse, cs)
      else if c = '\\' then none
      else pStrGo cs (c :: acc)

/-- Split a leading run of decimal digits off a character list. -/
def takeDigits : List Char → (List Char × List Char)
  | c :: cs =>
      if c.isDigit then
        let p := takeDigits cs
        (c :: p.1, p.2)
      else ([], c :: cs)
  | [] => ([], [])

/-- Decimal value of a digit run. -/
def digitsToNat (ds : List Char) : Nat :=
  ds.foldl (fun acc c => 10 * acc + (c.toNat - 48)) 0

mutual

/-- Recursive-descent JSON value parser (fuel-indexed so that all recursion is
structural and reduces definitionally). -/
def pVal : Nat → List Char → Option (Json × List Char)
  | 0, _ => none
  | fuel + 1, cs =>
    match skipWs cs with
    | [] => none
    | c :: rest =>
      if c = 'n' then (expectChars ['u', 'l', 'l'] rest).map (fun r => (Json.null, r))
      else if c = 't' then (expectChars ['r', 'u', 'e'] rest).map (fun r => (Json.bool true, r))
      else if c = 'f' then (expectChars ['a', 'l', 's', 'e'] rest).map (fun r => (Json.bool false, r))
      else if c = '"' then (pStrGo rest []).map (fun p => (Json.str p.1, p.2))
      else if c = '[' then
        match skipWs rest with
        | [] => none
        | c2 :: r2 =>
            if c2 = ']' then some (Json.arr [], r2)
            else (pElems fuel (c2 :: r2)).map (fun p => (Json.arr p.1, p.2))
      else if c = lbrace then
        match skipWs rest with
        | [] => none
        | c2 :: r2 =>
            if c2 = rbrace then some (Json.obj [], r2)
            else (pMembers fuel (c2 :: r2)).map (fun p => (Json.obj p.1, p.2))
      else if c = '-' then
        match takeDigits rest with
        | ([], _) => none
        | (ds, r) => some (Json.num (-(digitsToNat ds : Int)), r)
      else if c.isDigit then
        match takeDigits (c :: rest) with
        | (ds, r) => some (Json.num (digitsToNat ds : Int), r)
      else none

/-- Comma-separated JSON array elements, up to the closing bracket. -/
def pElems : Nat → List Char → Option (List Json × List Char)
  | 0, _ => none
  | fuel + 1, cs =>
    (pVal fuel cs).bind (fun p =>
      match skipWs p.2 with
      | [] => none
      | c2 :: r2 =>
          if c2 = ',' then (pElems fuel r2).map (fun q => (p.1 :: q.1, q.2))
          else if c2 = ']' then some ([p.1], r2)
          else none)

/-- Comma-separated JSON object members, up to the closing brace. -/
def pMembers : Nat → List Char → Option (List (String × Json) × List Char)
  | 0, _ => none
  | fuel + 1, cs =>
    match skipWs cs with
    | '"' :: rest =>
      (pStrGo rest []).bind (fun kp =>
        match skipWs kp.2 with
        | ':' :: r2 =>
          (pVal fuel r2).bind (fun vp =>
            match skipWs vp.2 with
            | [] => none
            | c4 :: r4 =>
                if c4 = ',' then (pMembers fuel r4).map (fun q => ((kp.1, vp.1) :: q.1, q.2))
                else if c4 = rbrace then some ([(kp.1, vp.1)], r4)
                else none)
        | _ => none)
    | _ => none

end

/-- `JSON.parse` model: parse a full JSON value and require that only
whitespace remains. -/
def parseJson (s : String) : Option Json :=
  match pVal (2 * s.data.length + 2) s.data with
  | some p => if skipWs p.2 = [] then some p.1 else none
  | none => none

/-- One global-replace pass, as in `String.prototype.replace(/pat\n?/g, '')`:
scan left to right, delete every non-overlapping occurrence of `pat` together
with one directly following newline when present (fuel-indexed for structural
recursion; fuel = input length always suffices since every step consumes at
least one character). -/
def stripAllF (pat : List Char) : Nat → List Char → List Char
  | 0, cs => cs
  | _ + 1, [] => []
  | fuel + 1, c :: cs =>
    if pat.isPrefixOf (c :: cs) then
      match (c :: cs).drop pat.length with
      | '\n' :: r => stripAllF pat fuel r
      | r => stripAllF pat fuel r
    else c :: stripAllF pat fuel cs

/-- generate.ts: `cleanedData.replace(/```json\n?/g, '').replace(/```\n?/g, '')`
— remove markdown code fences (the caller then applies `.trim()`). -/
def stripFences (s : String) : String :=
  let d1 := stripAllF "```json".data s.data.length s.data
  String.mk (stripAllF "```".data d1.length d1)

/-- Whitespace as far as trimming is concerned. -/
def isWsChar (c : Char) : Bool :=
  c = ' ' ∨ c = '\n' ∨ c = '\t' ∨ c = '\r'

/-- `String.prototype.trim()`: drop whitespace from both ends. -/
def trimStr (s : String) : String :=
  String.mk (((s.data.dropWhile isWsChar).reverse.dropWhile isWsChar).reverse)

/-- Index of the first occurrence of a character. -/
def firstIdxOf (c : Char) : List Char → Option Nat
  | [] => none
  | x :: xs => if x = c then some 0 else (firstIdxOf c xs).map (· + 1)

/-- Index of the last occurrence of a character. -/
def lastIdxOf (c : Char) : List Char → Option Nat
  | [] => none
  | x :: xs =>
    match lastIdxOf c xs with
    | some i => some (i + 1)
    | none => if x = c then some 0 else none

/-- generate.ts: `cleanedData.match(/\x7b[\s\S]*\x7d/)` — the regex engine
matches from the earliest opening brace that still has a closing brace after
it (leftmost match) through the last closing brace of the whole string (greedy
`[\s\S]*`).  Returns that substring, or `none` when no such pair exists. -/
def jsonMatchStr (s : String) : Option String :=
  match firstIdxOf lbrace s.data, lastIdxOf rbrace s.data with
  | some i, some j =>
      if i < j then some (String.mk ((s.data.drop i).take (j - i + 1))) else none
  | _, _ => none

/-- generate.ts lines 74–100: the parse-with-fallback logic exactly as coded.
First `JSON.parse(itineraryData)`; on failure strip the markdown fences, trim,
run the greedy brace-span regex on the cleaned text and `JSON.parse` that
single substring; fail when that also fails (matching either the
`'Failed to parse itinerary data'` or the `'No valid JSON found'` throw). -/
def parsePipeline (raw : String) : Option Json :=
  match parseJson raw with
  | some d => some d
  | none =>
    match jsonMatchStr (trimStr (stripFences raw)) with
    | some sub => parseJson sub
    | none => none

/-- Scan for the closing brace matching an already-consumed opening brace,
accumulating the span (depth starts at 1). -/
def scanSpan : List Char → Nat → List Char → Option (List Char)
  | [], _, _ => none
  | c :: rest, depth, acc =>
    if c = lbrace then scanSpan rest (depth + 1) (acc ++ [c])
    else if c = rbrace then
      if depth = 1 then some (acc ++ [c])
      else scanSpan rest (depth - 1) (acc ++ [c])
    else scanSpan rest depth (acc ++ [c])

/-- The first top-level balanced brace span of a character list: skip to the
first opening brace, then take through its matching closing brace. -/
def firstBalancedSpan : List Char → Option (List Char)
  | [] => none
  | c :: rest => if c = lbrace then scanSpan rest 1 [c] else firstBalancedSpan rest

/-- The three-stage pipeline as the specification describes it (for comparison
with `parsePipeline`, which is the code): direct parse; then strip fence
markers and re-parse the stripped text; then locate the first top-level
balanced brace span and parse that substring; first success short-circuits. -/
def parsePipelineSpec3 (raw : String) : Option Json :=
  match parseJson raw with
  | some d => some d
  | none =>
    let cleaned := trimStr (stripFences raw)
    match parseJson cleaned with
    | some d => some d
    | none =>
      match firstBalancedSpan cleaned.data with
      | some sub => parseJson (String.mk sub)
      | none => none

/-- JavaScript truthiness of a JSON value (`Boolean(x)`). -/
def Json.truthy : Json → Bool
  | .null => false
  | .bool b => b
  | .num n => decide (n ≠ 0)
  | .str s => decide (s ≠ "")
  | .arr _ => true
  | .obj _ => true

/-- Property access `parsed.k` on a parsed JSON value: `none` models
`undefined`.  `JSON.parse` keeps the last of duplicate keys, hence the
reverse lookup. -/
def getField (j : Json) (k : String) : Option Json :=
  match j with
  | .obj kvs => (kvs.reverse.find? (fun kv => kv.1 == k)).map (fun kv => kv.2)
  | _ => none

/-- `a || b` backfill as used in the `Itinerary.create` call of generate.ts:
the parsed field when present and truthy, the caller-supplied fallback
otherwise. -/
def jsOr (v : Option Json) (fallback : Json) : Json :=
  match v with
  | some j => if j.truthy then j else fallback
  | none => fallback

/-- An itinerary document of the `itineraries` collection.  ObjectIds are
modelled as strings; the scalar payload fields keep their JSON value (the
generate handler stores parsed-or-fallback values into them). -/
structure ItinDoc where
  _id : String
  userId : String
  title : String
  destination : Json
  totalDays : Json
  budget : Json
  interests : Json
  days : List Json
  collaborators : List String
  isPublic : Bool
  createdAt : Nat

/-- A user document of the `users` collection (models/User.ts). -/
structure UserDoc where
  _id : String
  name : String
  email : String

/-- An HTTP response of the single-itinerary endpoint: status code plus the
document payload on success. -/
structure Resp where
  status : Nat
  body : Option ItinDoc

/-- A JSON request body for itinerary update / manual creation: any subset of
the document fields may be supplied (absent = `none`). -/
structure BodyFields where
  userId : Option String := none
  title : Option String := none
  destination : Option Json := none
  totalDays : Option Json := none
  budget : Option Json := none
  interests : Option Json := none
  days : Option (List Json) := none
  collaborators : Option (List String) := none
  isPublic : Option Bool := none

/-- [id].ts GET filter:
`{_id: id, $or: [{userId: sid}, {collaborators: sid}, {isPublic: true}]}`
(the `_id` part is checked by the caller). -/
def readFilter (sid : String) (it : ItinDoc) : Bool :=
  it.userId == sid || it.collaborators.contains sid || it.isPublic

/-- [id].ts PUT filter and index.ts GET filter:
`$or: [{userId: sid}, {collaborators: sid}]`. -/
def ownerOrCollaborator (sid : String) (it : ItinDoc) : Bool :=
  it.userId == sid || it.collaborators.contains sid

/-- [id].ts GET branch: `Itinerary.findOne({_id: id, $or: [...]})`; found →
200 with the document, not found → 404 "Itinerary not found".  (The
`populate` calls expand owner/collaborator ids for display and are omitted
from the persistence model.) -/
def getOne (db : List ItinDoc) (sid iid : String) : Resp :=
  match db.find? (fun it => it._id == iid && readFilter sid it) with
  | some it => ⟨200, some it⟩
  | none => ⟨404, none⟩

/-- `findByIdAndUpdate(id, req.body)`: every field path present in the body
replaces the stored one (Mongoose treats a plain object as a `$set` of the
supplied paths; `_id` itself is immutable in MongoDB). -/
def applyUpdate (it : ItinDoc) (b : BodyFields) : ItinDoc :=
  { _id := it._id
    userId := b.userId.getD it.userId
    title := b.title.getD it.title
    destination := b.destination.getD it.destination
    totalDays := b.totalDays.getD it.totalDays
    budget := b.budget.getD it.budget
    interests := b.interests.getD it.interests
    days := b.days.getD it.days
    collaborators := b.collaborators.getD it.collaborators
    isPublic := b.isPublic.getD it.isPublic
    createdAt := it.createdAt }

/-- [id].ts PUT branch: `findOne({_id: id, $or: [{userId}, {collaborators}]})`;
absent → 404; otherwise `findByIdAndUpdate(id, req.body)` (lookup by id only)
and 200 with the updated document.  Returns the response and the resulting
collection state. -/
def putOne (db : List ItinDoc) (sid iid : String) (b : BodyFields) :
    Resp × List ItinDoc :=
  match db.find? (fun it => it._id == iid && ownerOrCollaborator sid it) with
  | none => (⟨404, none⟩, db)
  | some _ =>
      let db2 := db.map (fun it => if it._id == iid then applyUpdate it b else it)
      (⟨200, db2.find? (fun it => it._id == iid)⟩, db2)

/-- [id].ts DELETE branch: `findOne({_id: id, userId: sid})`; absent → 404;
otherwise `findByIdAndDelete(id)` and 200.  Returns the status and the
resulting collection state. -/
def deleteOne (db : List ItinDoc) (sid iid : String) : Nat × List ItinDoc :=
  match db.find? (fun it => it._id == iid && it.userId == sid) with
  | none => (404, db)
  | some _ => (200, db.filter (fun it => !(it._id == iid)))

/-- index.ts GET branch: `Itinerary.find({$or: [{userId}, {collaborators}]})`
sorted by `createdAt` descending. -/
def listMine (db : List ItinDoc) (sid : String) : List ItinDoc :=
  (db.filter (ownerOrCollaborator sid)).mergeSort
    (fun a b => decide (b.createdAt ≤ a.createdAt))

/-- Outcome of the add-collaborator endpoint (collaborate.ts POST), one
constructor per response the handler can produce. -/
inductive AddRes where
  | ok (it : ItinDoc)     -- 200 with the updated record
  | missingEmail          -- 400 "Please provide an email"
  | itinNotFound          -- 404 "Itinerary not found or you do not have permission"
  | userNotFound          -- 404 "User not found"
  | selfAdd               -- 400 "You cannot add yourself as a collaborator"
  | already               -- 400 "User is already a collaborator"

/-- collaborate.ts POST branch, line by line: missing email → 400; lookup
`{_id: id, userId: sid}` → 404; `User.findOne({email})` → 404; resolved id
equals the session id → 400 self-add; `collaborators.some(cid =>
cid.toString() === collaborator._id.toString())` → 400 duplicate; otherwise
push the id and `save()`.  Returns the outcome and the resulting itineraries
collection. -/
def addCollaborator (idb : List ItinDoc) (udb : List UserDoc) (sid iid : String)
    (email : Option String) : AddRes × List ItinDoc :=
  match email with
  | none => (.missingEmail, idb)
  | some e =>
    if e = "" then (.missingEmail, idb)
    else
      match idb.find? (fun it => it._id == iid && it.userId == sid) with
      | none => (.itinNotFound, idb)
      | some it =>
        match udb.find? (fun u => u.email == e) with
        | none => (.userNotFound, idb)
        | some collab =>
          if collab._id == sid then (.selfAdd, idb)
          else if it.collaborators.any (fun cid => cid == collab._id) then (.already, idb)
          else
            let it2 := { it with collaborators := it.collaborators ++ [collab._id] }
            (.ok it2, idb.map (fun d => if d._id == iid then it2 else d))

/-- Outcome of the generate endpoint (generate.ts), restricted to the
post-authentication stages the claims are about. -/
inductive GenRes where
  | created (it : ItinDoc)  -- 201 with the created record
  | badRequest              -- 400 "Please provide destination, days, and budget"
  | parseFailed             -- 500 "Failed to parse itinerary data" / "No valid JSON found"
  | missingDays             -- 500 "Invalid itinerary data: Missing days array"
  | emptyDays               -- 500 "Invalid itinerary data: No days generated"

/-- generate.ts: `!destination || !days || !budget` → 400; `parsePipeline` on
the raw model text; `!parsedData.days || !Array.isArray(parsedData.days)` →
missing-days error; `parsedData.days.length === 0` → empty-days error;
otherwise `Itinerary.create` with the literal field list of the source
(`collaborators: []`, `isPublic: false`, backfilled scalars via `||`).
`newId` and `now` stand for the ObjectId and timestamp minted by the store. -/
def generateHandler (sid destination : String) (days : Nat) (budget : String)
    (interests : List Json) (raw : String) (newId : String) (now : Nat) : GenRes :=
  if destination = "" ∨ days = 0 ∨ budget = "" then .badRequest
  else
    match parsePipeline raw with
    | none => .parseFailed
    | some parsed =>
      match getField parsed "days" with
      | some (Json.arr ds) =>
          if ds.isEmpty then .emptyDays
          else
            .created
              { _id := newId
                userId := sid
                title := destination ++ " - " ++ toString days ++ " Day" ++
                  (if days > 1 then "s" else "") ++ " Trip"
                destination := jsOr (getField parsed "destination") (Json.str destination)
                totalDays := jsOr (getField parsed "totalDays") (Json.num (days : Int))
                budget := jsOr (getField parsed "budget") (Json.str budget)
                interests := jsOr (getField parsed "interests") (Json.arr interests)
                days := ds
                collaborators := []
                isPublic := false
                createdAt := now }
      | some _ => .missingDays
      | none => .missingDays

/-- Modelled from the spec: the Itinerary schema of models/Itinerary.ts is not
among the provided sources, so `Itinerary.create` on a plain input object is
modelled from §3 of the specification — each schema field present in the
input is stored as supplied, and an absent field receives its schema default
(empty collaborator set, public-read flag false, per the §3 lifecycle
description; absent scalars default to empty/null placeholders). -/
def itineraryCreate (newId : String) (b : BodyFields) (now : Nat) : ItinDoc :=
  { _id := newId
    userId := b.userId.getD ""
    title := b.title.getD ""
    destination := b.destination.getD Json.null
    totalDays := b.totalDays.getD Json.null
    budget := b.budget.getD Json.null
    interests := b.interests.getD (Json.arr [])
    days := b.days.getD []
    collaborators := b.collaborators.getD []
    isPublic := b.isPublic.getD false
    createdAt := now }

/-- index.ts POST branch (manual creation):
`Itinerary.create({...req.body, userId: session.user.id})` — the caller's
body is spread first and only the `userId` field is overridden with the
session identifier. -/
def manualCreate (newId sid : String) (b : BodyFields) (now : Nat) : ItinDoc :=
  itineraryCreate newId { b with userId := some sid } now

/-- A collaborator entry as the client receives it in JSON: either a primitive
identifier string (unpopulated ObjectId) or an expanded record carrying the
identifier plus display fields (populated `name email`). -/
inductive CollabVal where
  | ref (id : String)
  | expanded (id name email : String)

/-- `collab.toString()` on the client-side JSON value: a string is itself, a
plain object stringifies to `"[object Object]"`. -/
def CollabVal.jsToString : CollabVal → String
  | .ref s => s
  | .expanded _ _ _ => "[object Object]"

/-- `typeof collab === 'object'`. -/
def CollabVal.isObj : CollabVal → Bool
  | .ref _ => false
  | .expanded _ _ _ => true

/-- `collab._id?.toString()`: the normalized identifier of either form (for a
primitive value the code reaches it via the first disjunct instead). -/
def CollabVal.idStr : CollabVal → String
  | .ref s => s
  | .expanded i _ _ => i

/-- create.tsx line 377: the per-entry collaborator equality check
`collab.toString() === session?.user?.id ||
 (typeof collab === 'object' && collab._id?.toString() === session?.user?.id)`. -/
def collabEqCheck (sid : String) (c : CollabVal) : Bool :=
  c.jsToString == sid || (c.isObj && c.idStr == sid)

/-- create.tsx lines 376–379: `itinerary.collaborators?.some(...)`. -/
def isCollaboratorCheck (sid : String) (collabs : List CollabVal) : Bool :=
  collabs.any (collabEqCheck sid)

/-- collaborate.ts line 50: the duplicate-collaborator membership test over
the stored identifier list, both sides taken `.toString()`. -/
def dupCheck (collabIds : List String) (newId : String) : Bool :=
  collabIds.any (fun cid => cid == newId)

/-! ### Concrete sample documents used by counterexamples and witnesses -/

/-- A private itinerary owned by "olivia" with collaborator "mallory". -/
def itSample : ItinDoc :=
  { _id := "i1", userId := "olivia", title := "T"
    destination := Json.str "Paris", totalDays := Json.num 3
    budget := Json.str "$1000", interests := Json.arr []
    days := [Json.obj []], collaborators := ["mallory"]
    isPublic := false, createdAt := 5 }

/-- A public itinerary owned by "olivia" with no collaborators. -/
def itPublic : ItinDoc :=
  { _id := "i2", userId := "olivia", title := "U"
    destination := Json.str "Rome", totalDays := Json.num 2
    budget := Json.str "$500", interests := Json.arr []
    days := [Json.obj []], collaborators := []
    isPublic := true, createdAt := 6 }

/-- A manual-creation body that supplies its own collaborator set and
public-read flag. -/
def bodyWithFlags : BodyFields :=
  { userId := some "mallory", title := some "Mine"
    destination := some (Json.str "Paris"), totalDays := some (Json.num 3)
    budget := some (Json.str "$1000"), interests := some (Json.arr [])
    days := some [Json.obj []]
    collaborators := some ["bob"], isPublic := some true }

/-- The record the generate handler creates from the raw model output
`{"days": [{}]}` with request parameters Paris / 3 days / $1000. -/
def genDoc : ItinDoc :=
  { _id := "i7", userId := "alice", title := "Paris - 3 Days Trip"
    destination := Json.str "Paris", totalDays := Json.num 3
    budget := Json.str "$1000", interests := Json.arr []
    days := [Json.obj []], collaborators := []
    isPublic := false, createdAt := 9 }

/-! ### Claims -/

/-- C10: for every manual-creation request by an authenticated user, the
persisted itinerary's owning user identifier equals the requester's session
identifier, whatever `userId` the request body supplies: index.ts spreads the
body first and then overrides `userId` with `session.user.id`. -/
theorem c10_manual_create_owner_is_session (newId sid : String) (b : BodyFields)
    (now : Nat) : (manualCreate newId sid b now).userId = sid := by
  simp [manualCreate, itineraryCreate]

/-- C6: for every pair of identifier values denoting the same logical user —
a primitive identifier string and an expanded record carrying that identifier
plus display fields — the collaborator-membership equality check accepts
both forms, membership in a collaborator list holds for both forms wherever
they occur, the verdict on an expanded record is independent of its display
fields (so no structural comparison of the expanded form is involved), and
the server-side duplicate check compares normalized identifier strings. -/
theorem c6_membership_check_normalizes (i nm em : String) (pre post : List CollabVal) :
    collabEqCheck i (.ref i) = true ∧
    collabEqCheck i (.expanded i nm em) = true ∧
    isCollaboratorCheck i (pre ++ CollabVal.ref i :: post) = true ∧
    isCollaboratorCheck i (pre ++ CollabVal.expanded i nm em :: post) = true ∧
    (∀ nm2 em2, collabEqCheck i (.expanded i nm em) = collabEqCheck i (.expanded i nm2 em2)) ∧
    (∀ pre2 post2 : List String, dupCheck (pre2 ++ i :: post2) i = true) := by
  refine ⟨?_, ?_, ?_, ?_, ?_, ?_⟩ <;>
    simp [collabEqCheck, isCollaboratorCheck, dupCheck, CollabVal.jsToString,
      CollabVal.isObj, CollabVal.idStr, List.any_append]

/-- C7 counterexample: on the raw text `x{}y}` the code's pipeline fails
(direct parse fails and the greedy first-brace-to-last-brace span `{}y}` is
not valid JSON), while the specified third stage — parse the first balanced
brace span, here `{}` — succeeds.  Hence the pipeline does not implement
the three claimed stages and can fail although the balanced-span stage would
succeed. -/
theorem c7_counterexample :
    parsePipeline "x\x7b\x7dy\x7d" = none ∧
    parsePipelineSpec3 "x\x7b\x7dy\x7d" = some (Json.obj []) :=
  ⟨rfl, rfl⟩

/-- C7 amended: the ingestion pipeline makes exactly two parse attempts in
strict order — a direct structured parse of the raw text, then one parse of
the greedy brace span (first opening brace to last closing brace) of the
fence-stripped, trimmed text — the first success short-circuits the second
attempt, and it fails exactly when both attempts fail; there is no separate
re-parse of the stripped text and no balanced-span search. -/
theorem c7_pipeline_two_attempts (raw : String) :
    (∀ d, parseJson raw = some d → parsePipeline raw = some d) ∧
    (parseJson raw = none →
      parsePipeline raw = (jsonMatchStr (trimStr (stripFences raw))).bind parseJson) ∧
    (parsePipeline raw = none ↔
      parseJson raw = none ∧
        (jsonMatchStr (trimStr (stripFences raw))).bind parseJson = none) := by
  unfold parsePipeline
  cases h : parseJson raw <;>
    cases h2 : jsonMatchStr (trimStr (stripFences raw)) <;>
      simp [h, h2]

/-- C7 amended, witness: on the raw text `{}` the first attempt already
succeeds and the pipeline returns its result. -/
theorem c7_pipeline_two_attempts_witness :
    parsePipeline "\x7b\x7d" = some (Json.obj []) :=
  (c7_pipeline_two_attempts "\x7b\x7d").1 (Json.obj []) rfl

/-- C9 counterexample: collaborator "mallory" sends a PUT whose body contains
`userId: "mallory"`; the update succeeds (200) and the stored owner changes
from "olivia" to "mallory", because the handler passes `req.body` unchanged
to `findByIdAndUpdate`. -/
theorem c9_counterexample :
    ((putOne [itSample] "mallory" "i1"
        { userId := some "mallory" }).1.status = 200) ∧
    ((putOne [itSample] "mallory" "i1"
        { userId := some "mallory" }).2.map ItinDoc.userId = ["mallory"]) ∧
    itSample.userId = "olivia" :=
  ⟨rfl, rfl, rfl⟩

/-- C9 amended: a successful PUT leaves every stored owning user identifier
unchanged provided the request body does not supply a `userId` field; with a
body that does supply one, the owner field is overwritten (see the
counterexample). -/
theorem c9_owner_unchanged_without_userId_field (db : List ItinDoc)
    (sid iid : String) (b : BodyFields) (h : b.userId = none) :
    (putOne db sid iid b).2.map ItinDoc.userId = db.map ItinDoc.userId := by
  unfold putOne
  cases hf : db.find? (fun it => it._id == iid && ownerOrCollaborator sid it) with
  | none => rfl
  | some it =>
      simp only [List.map_map]
      refine List.map_congr_left (fun d _ => ?_)
      by_cases hid : d._id = iid <;> simp [hid, applyUpdate, h]

/-- C9 amended, witness: a PUT with an empty body preserves the owner list of
a concrete one-document collection. -/
theorem c9_owner_unchanged_witness :
    (putOne [itSample] "mallory" "i1" {}).2.map ItinDoc.userId =
      [itSample].map ItinDoc.userId :=
  c9_owner_unchanged_without_userId_field [itSample] "mallory" "i1" {} rfl

/-- C1: an authenticated GET on a single itinerary succeeds (200) exactly when
the requester is the owner, or is in the collaborators set, or the public-read
flag is set; in every other case the response is 404 "not found", and no 403
"forbidden" is ever produced. -/
theorem c1_read_owner_collaborator_or_public (db : List ItinDoc) (sid iid : String) :
    ((getOne db sid iid).status = 200 ↔
      ∃ it ∈ db, it._id = iid ∧
        (it.userId = sid ∨ sid ∈ it.collaborators ∨ it.isPublic = true)) ∧
    ((¬ ∃ it ∈ db, it._id = iid ∧
        (it.userId = sid ∨ sid ∈ it.collaborators ∨ it.isPublic = true)) →
      (getOne db sid iid).status = 404) ∧
    (getOne db sid iid).status ≠ 403 := by
  have key : (db.find? (fun it => it._id == iid && readFilter sid it)).isSome ↔
      ∃ it ∈ db, it._id = iid ∧
        (it.userId = sid ∨ sid ∈ it.collaborators ∨ it.isPublic = true) := by
    rw [List.find?_isSome]
    constructor <;>
      (rintro ⟨x, hx, hpx⟩
       refine ⟨x, hx, ?_⟩
       simp [readFilter] at hpx ⊢
       tauto)
  unfold getOne
  cases h : db.find? (fun it => it._id == iid && readFilter sid it) with
  | some it =>
      have hex := key.mp (by rw [h]; rfl)
      exact ⟨⟨fun _ => hex, fun _ => rfl⟩, fun hne => absurd hex hne,
        by show (200 : Nat) ≠ 403; decide⟩
  | none =>
      have hnex : ¬ ∃ it ∈ db, it._id = iid ∧
          (it.userId = sid ∨ sid ∈ it.collaborators ∨ it.isPublic = true) := by
        intro hex
        have := key.mpr hex
        rw [h] at this
        simp at this
      exact ⟨⟨fun h200 => absurd h200 (by show (404 : Nat) ≠ 200; decide),
        fun hex => absurd hex hnex⟩,
        fun _ => rfl, by show (404 : Nat) ≠ 403; decide⟩

/-- C1 witness: a stranger reads a public itinerary and succeeds. -/
theorem c1_read_witness : (getOne [itPublic] "zara" "i2").status = 200 :=
  (c1_read_owner_collaborator_or_public [itPublic] "zara" "i2").1.mpr
    ⟨itPublic, by simp, rfl, Or.inr (Or.inr rfl)⟩

/-- C2: an authenticated PUT succeeds (200) exactly when the requester is the
owner or a current collaborator; otherwise — in particular on a public-read
itinerary where the requester is neither — the response is 404 and the
collection is untouched. -/
theorem c2_update_owner_or_collaborator (db : List ItinDoc) (sid iid : String)
    (b : BodyFields) :
    ((putOne db sid iid b).1.status = 200 ↔
      ∃ it ∈ db, it._id = iid ∧ (it.userId = sid ∨ sid ∈ it.collaborators)) ∧
    ((¬ ∃ it ∈ db, it._id = iid ∧ (it.userId = sid ∨ sid ∈ it.collaborators)) →
      (putOne db sid iid b).1.status = 404 ∧ (putOne db sid iid b).2 = db) := by
  have key : (db.find? (fun it => it._id == iid && ownerOrCollaborator sid it)).isSome ↔
      ∃ it ∈ db, it._id = iid ∧ (it.userId = sid ∨ sid ∈ it.collaborators) := by
    rw [List.find?_isSome]
    constructor <;>
      (rintro ⟨x, hx, hpx⟩
       refine ⟨x, hx, ?_⟩
       simp [ownerOrCollaborator] at hpx ⊢
       tauto)
  unfold putOne
  cases h : db.find? (fun it => it._id == iid && ownerOrCollaborator sid it) with
  | some it =>
      have hex := key.mp (by rw [h]; rfl)
      exact ⟨⟨fun _ => hex, fun _ => rfl⟩, fun hne => absurd hex hne⟩
  | none =>
      have hnex : ¬ ∃ it ∈ db, it._id = iid ∧
          (it.userId = sid ∨ sid ∈ it.collaborators) := by
        intro hex
        have := key.mpr hex
        rw [h] at this
        simp at this
      exact ⟨⟨fun h200 => absurd h200 (by show (404 : Nat) ≠ 200; decide),
        fun hex => absurd hex hnex⟩,
        fun _ => ⟨rfl, rfl⟩⟩

/-- C2 witness: a stranger PUTs on a public itinerary they neither own nor
collaborate on; public-read alone is insufficient and the result is 404. -/
theorem c2_update_witness : (putOne [itPublic] "zara" "i2" {}).1.status = 404 :=
  ((c2_update_owner_or_collaborator [itPublic] "zara" "i2" {}).2 (by decide)).1

/-- C3: an authenticated DELETE succeeds (200) exactly when the requester is
the owner; every other identity — collaborators and requesters on public-read
itineraries included — gets 404 with the collection untouched, and on success
no document with the target id remains. -/
theorem c3_delete_owner_only (db : List ItinDoc) (sid iid : String) :
    ((deleteOne db sid iid).1 = 200 ↔
      ∃ it ∈ db, it._id = iid ∧ it.userId = sid) ∧
    ((¬ ∃ it ∈ db, it._id = iid ∧ it.userId = sid) →
      (deleteOne db sid iid).1 = 404 ∧ (deleteOne db sid iid).2 = db) ∧
    ((deleteOne db sid iid).1 = 200 → ∀ d ∈ (deleteOne db sid iid).2, d._id ≠ iid) := by
  have key : (db.find? (fun it => it._id == iid && it.userId == sid)).isSome ↔
      ∃ it ∈ db, it._id = iid ∧ it.userId = sid := by
    rw [List.find?_isSome]
    constructor <;>
      (rintro ⟨x, hx, hpx⟩
       refine ⟨x, hx, ?_⟩
       simp at hpx ⊢
       tauto)
  unfold deleteOne
  cases h : db.find? (fun it => it._id == iid && it.userId == sid) with
  | some it =>
      have hex := key.mp (by rw [h]; rfl)
      refine ⟨⟨fun _ => hex, fun _ => rfl⟩, fun hne => absurd hex hne, fun _ d hd => ?_⟩
      have := (List.mem_filter.mp hd).2
      simpa using this
  | none =>
      have hnex : ¬ ∃ it ∈ db, it._id = iid ∧ it.userId = sid := by
        intro hex
        have := key.mpr hex
        rw [h] at this
        simp at this
      exact ⟨⟨fun h200 => absurd h200 (by show (404 : Nat) ≠ 200; decide),
        fun hex => absurd hex hnex⟩,
        fun _ => ⟨rfl, rfl⟩,
        fun h200 => absurd h200 (by show (404 : Nat) ≠ 200; decide)⟩

/-- C3 witness: collaborator "mallory" attempts DELETE on an itinerary owned
by "olivia" and is denied with 404, collection untouched. -/
theorem c3_delete_witness :
    (deleteOne [itSample] "mallory" "i1").1 = 404 :=
  ((c3_delete_owner_only [itSample] "mallory" "i1").2.1 (by decide)).1

/-- C4: the authenticated list result contains exactly the itineraries where
the requester is the owner or a collaborator; a public-read itinerary of
someone else that does not list the requester never appears. -/
theorem c4_list_owner_or_collaborator_only (db : List ItinDoc) (sid : String)
    (it : ItinDoc) :
    (it ∈ listMine db sid ↔ it ∈ db ∧ (it.userId = sid ∨ sid ∈ it.collaborators)) ∧
    (it.isPublic = true → it.userId ≠ sid → sid ∉ it.collaborators →
      it ∉ listMine db sid) := by
  have hm : it ∈ listMine db sid ↔ it ∈ db ∧ (it.userId = sid ∨ sid ∈ it.collaborators) := by
    unfold listMine
    rw [List.mem_mergeSort, List.mem_filter]
    simp [ownerOrCollaborator]
  refine ⟨hm, fun _ hno hnc hmem => ?_⟩
  rcases (hm.mp hmem).2 with h1 | h1
  · exact hno h1
  · exact hnc h1

/-- C4 witness: a public itinerary owned by "olivia" does not appear in
stranger "zara"'s list. -/
theorem c4_list_witness : itPublic ∉ listMine [itPublic] "zara" :=
  (c4_list_owner_or_collaborator_only [itPublic] "zara" itPublic).2 rfl
    (by decide) (by decide)

/-- C8 counterexample: a manual-creation request whose body supplies
`isPublic: true` and `collaborators: ["bob"]` is persisted with exactly those
values — index.ts spreads `req.body` into `Itinerary.create` and only
overrides `userId`, so the created record is neither collaborator-free nor
private. -/
theorem c8_counterexample :
    (manualCreate "i9" "alice" bodyWithFlags 7).isPublic = true ∧
    (manualCreate "i9" "alice" bodyWithFlags 7).collaborators = ["bob"] :=
  ⟨rfl, rfl⟩

/-- C8 amended: an itinerary created from a validated generation result is
always persisted with an empty collaborator set and public-read flag false
(the generate handler sets both literally); a manually created itinerary gets
those values only when the caller's body omits the `collaborators` and
`isPublic` fields — values the body does supply are persisted as sent. -/
theorem c8_created_collaborators_and_public_flag (sid destination : String)
    (days : Nat) (budget : String) (interests : List Json) (raw newId : String)
    (now : Nat) (it : ItinDoc)
    (hgen : generateHandler sid destination days budget interests raw newId now =
      GenRes.created it) :
    (it.collaborators = [] ∧ it.isPublic = false) ∧
    ∀ newId2 sid2 (b : BodyFields) now2, b.collaborators = none → b.isPublic = none →
      (manualCreate newId2 sid2 b now2).collaborators = [] ∧
      (manualCreate newId2 sid2 b now2).isPublic = false := by
  constructor
  · unfold generateHandler at hgen
    split at hgen
    · simp at hgen
    · split at hgen
      · simp at hgen
      · split at hgen
        · split at hgen
          · simp at hgen
          · injection hgen with h
            subst h
            exact ⟨rfl, rfl⟩
        · simp at hgen
        · simp at hgen
  · intro newId2 sid2 b now2 hc hp
    constructor <;> simp [manualCreate, itineraryCreate, hc, hp]

/-- C8 amended, witness: the generate handler on the raw model output
`{"days": [{}]}` creates the concrete `genDoc`, whose collaborator set is
empty and public-read flag false, and a manual create with an empty body gets
the same defaults. -/
theorem c8_created_witness :
    (genDoc.collaborators = [] ∧ genDoc.isPublic = false) ∧
    ((manualCreate "i8" "alice" {} 0).collaborators = [] ∧
      (manualCreate "i8" "alice" {} 0).isPublic = false) := by
  have h := c8_created_collaborators_and_public_flag "alice" "Paris" 3 "$1000" []
    "\x7b\x22days\x22: [\x7b\x7d]\x7d" "i7" 9 genDoc (by rfl)
  exact ⟨h.1, h.2 "i8" "alice" {} 0 rfl rfl⟩

/-- C5: add-collaborator by the itinerary's owner: 404 "User not found" when
no user record matches the supplied email; 400 "cannot add yourself" when the
resolved identifier equals the owner's own; 400 "already a collaborator",
with the collection unchanged, when the resolved identifier equals an
existing entry; otherwise the identifier is appended to the collaborator set
and persisted — after which a second add of the same email fails with
"already a collaborator" and leaves the collection unchanged. -/
theorem c5_add_collaborator_cases (idb : List ItinDoc) (udb : List UserDoc)
    (sid iid e : String) (it : ItinDoc)
    (hfind : idb.find? (fun d => d._id == iid && d.userId == sid) = some it)
    (hne : e ≠ "") :
    (udb.find? (fun u => u.email == e) = none →
      addCollaborator idb udb sid iid (some e) = (.userNotFound, idb)) ∧
    ∀ u, udb.find? (fun u2 => u2.email == e) = some u →
      (u._id = sid → addCollaborator idb udb sid iid (some e) = (.selfAdd, idb)) ∧
      (u._id ≠ sid → u._id ∈ it.collaborators →
        addCollaborator idb udb sid iid (some e) = (.already, idb)) ∧
      (u._id ≠ sid → u._id ∉ it.collaborators →
        addCollaborator idb udb sid iid (some e) =
          (.ok { it with collaborators := it.collaborators ++ [u._id] },
           idb.map (fun d => if d._id == iid then
             { it with collaborators := it.collaborators ++ [u._id] } else d)) ∧
        addCollaborator
            (idb.map (fun d => if d._id == iid then
              { it with collaborators := it.collaborators ++ [u._id] } else d))
            udb sid iid (some e) =
          (.already,
           idb.map (fun d => if d._id == iid then
             { it with collaborators := it.collaborators ++ [u._id] } else d))) := by
  have hit : it._id = iid ∧ it.userId = sid := by
    have := List.find?_some hfind
    simpa using this
  have hstep : ∀ (xdb : List ItinDoc) (x : ItinDoc),
      xdb.find? (fun d => d._id == iid && d.userId == sid) = some x →
      addCollaborator xdb udb sid iid (some e) =
        (match udb.find? (fun u => u.email == e) with
         | none => (.userNotFound, xdb)
         | some collab =>
           if collab._id == sid then (.selfAdd, xdb)
           else if x.collaborators.any (fun cid => cid == collab._id) then
             (.already, xdb)
           else
             (.ok { x with collaborators := x.collaborators ++ [collab._id] },
              xdb.map (fun d => if d._id == iid then
                { x with collaborators := x.collaborators ++ [collab._id] } else d))) := by
    intro xdb x hx
    simp only [addCollaborator]
    rw [if_neg hne, hx]
  constructor
  · intro hu
    rw [hstep idb it hfind, hu]
  · intro u hu
    refine ⟨?_, ?_, ?_⟩
    · intro husid
      rw [hstep idb it hfind, hu]
      simp [husid]
    · intro hne2 hmem
      rw [hstep idb it hfind, hu]
      simp only []
      rw [if_neg (by simp [hne2]), if_pos (by simpa using hmem)]
    · intro hne2 hnm
      have hfirst : addCollaborator idb udb sid iid (some e) =
          (.ok { it with collaborators := it.collaborators ++ [u._id] },
           idb.map (fun d => if d._id == iid then
             { it with collaborators := it.collaborators ++ [u._id] } else d)) := by
        rw [hstep idb it hfind, hu]
        simp only []
        rw [if_neg (by simp [hne2]), if_neg (by simpa using hnm)]
      refine ⟨hfirst, ?_⟩
      have hfind2 : (idb.map (fun d => if d._id == iid then
          { it with collaborators := it.collaborators ++ [u._id] } else d)).find?
            (fun d => d._id == iid && d.userId == sid) =
          some { it with collaborators := it.collaborators ++ [u._id] } := by
        rw [List.find?_map]
        have hcomp : ((fun d => d._id == iid && d.userId == sid) ∘
            (fun d => if d._id == iid then
              { it with collaborators := it.collaborators ++ [u._id] } else d)) =
            (fun d => d._id == iid) := by
          funext d
          by_cases hd : d._id = iid
          · simp [hd, hit.1, hit.2]
          · simp [hd]
        rw [hcomp]
        cases hf0 : idb.find? (fun d => d._id == iid) with
        | none =>
            have := List.find?_eq_none.mp hf0 it (List.mem_of_find?_eq_some hfind)
            simp [hit.1] at this
        | some d0 =>
            have hd0 := List.find?_some hf0
            simp at hd0
            simp [hd0]
      rw [hstep _ _ hfind2, hu]
      simp only []
      rw [if_neg (by simp [hne2]), if_pos (by simp)]

/-- C5 witness: with no user record matching the supplied email, the owner's
add-collaborator request fails with "User not found" and the collection is
unchanged. -/
theorem c5_add_collaborator_witness :
    addCollaborator [itSample] [] "olivia" "i1" (some "bob@x.com") =
      (.userNotFound, [itSample]) :=
  (c5_add_collaborator_cases [itSample] [] "olivia" "i1" "bob@x.com" itSample
    rfl (by decide)).1 rfl

end AITG
